import Mathlib

/-
Verification of the operation-construction and execution layer of TED
(src/collections/server/src/ted/services/database/operations/baseOperations.ts).

The TypeScript classes are shallowly embedded: class state becomes a
structure, a method that mutates state or throws becomes a pure function
returning Except, and the side effects of BatchOperation.execute
(createTable and done calls on the member operations) are recorded in an
explicit trace. JavaScript objects used as string maps are embedded as
ordered association lists with JavaScript assignment semantics (update in
place if the key exists, append otherwise).
-/

set_option autoImplicit false

namespace TED

/-- Mirror of myTypes.action: the action tag carried by every operation. -/
inductive myTypes.action where
  | save
  | get
  | remove
  | batch
deriving DecidableEq, BEq, Repr, Inhabited

/-- Which backend family was selected at startup (the module-level core
variable): CQL for cassandra/scylladb/keyspace, SQL for mongodb. -/
inductive Core where
  | CQL
  | SQL
deriving DecidableEq, BEq, Repr, Inhabited

/-- Modelled from the spec: the backend error shape (myTypes.CQLResponseError
is not under src/). BatchOperation.execute only reads err.code and
err.message; code is absent (undefined) on non-CQL errors, so it is an
Option. -/
structure CQLResponseError where
  code : Option Int
  message : String
deriving DecidableEq, BEq, Repr

/-- A JavaScript object used as a string-keyed map, as an ordered
association list (insertion order preserved, keys unique). -/
abbrev DBentry := List (String × String)

/-- JavaScript property assignment entry[k] = v: if the key is present the
value is replaced in place, otherwise the pair is appended. -/
def objAssign (entry : DBentry) (k v : String) : DBentry :=
  if entry.any (fun p => p.1 = k) then
    entry.map (fun p => if p.1 = k then (k, v) else p)
  else entry ++ [(k, v)]

/-- First value stored under key k, if any. -/
def lookupKey (entry : DBentry) (k : String) : Option String :=
  (entry.find? (fun p => p.1 = k)).map (fun p => p.2)

/-- JavaScript array indexing l[i]: out-of-range reads give undefined,
which string-coerces to "undefined" when used as a property key. -/
def jsIndex (l : List String) (i : Nat) : String :=
  match l.get? i with
  | some s => s
  | none => "undefined"

/-- BaseOperation.buildEntry: the loop
for i in [0, documents.length) do entry[collections[i]] = documents[i].
The loop body cannot throw in JavaScript, so the function is total. -/
def BaseOperation.buildEntry (collections documents : List String) : DBentry :=
  (List.range documents.length).foldl
    (fun entry i => objAssign entry (jsIndex collections i) (jsIndex documents i)) []

/-- SaveOperation.buildEntry: the base entry plus entry["object"] = object. -/
def SaveOperation.buildEntry (collections documents : List String) (object : String) : DBentry :=
  objAssign (BaseOperation.buildEntry collections documents) "object" object

/-- BaseOperation.buildTableName: push every collection name followed by
"_", drop the last pushed element (slice(0,-1)), join with "". -/
def buildTableName (collections : List String) : String :=
  let res : List String := collections.foldl (fun acc c => acc ++ [c, "_"]) []
  String.join res.dropLast

/-- Path join as the spec words it: the collection names concatenated with
a single "_" between consecutive names, no leading or trailing separator.
Stated from the spec to compare against buildTableName. -/
def sepJoin : List String → String
  | [] => ""
  | [c] => c
  | c :: rest => c ++ "_" ++ sepJoin rest

/-- Character-level form of sepJoin, used to prove that the naming is
injective on separator-free names. -/
def joinData : List (List Char) → List Char
  | [] => []
  | [c] => c
  | c :: rest => c ++ '_' :: joinData rest

/-- Character class [a-zA-z_] of the collection-missing regex. Because the
A-z range already spans codepoints 65 to 122 (which include the lowercase
letters and the underscore), the class is exactly that range. -/
def regexNameChar (c : Char) : Bool :=
  decide (Char.ofNat 65 ≤ c) && decide (c ≤ Char.ofNat 122)

/-- JavaScript line terminators, which the regex metacharacter dot does
not match. -/
def jsLineTerminator (c : Char) : Bool :=
  c = Char.ofNat 10 || c = Char.ofNat 13 || c = Char.ofNat 0x2028 || c = Char.ofNat 0x2029

/-- Whether msg matches the regex that anchors at the start with the word
Collection, then a greedy run of name characters, then the literal words
does not exist, then one more arbitrary non-terminator character. The
greedy star is equivalent to taking the maximal run, because the literal
after it starts with a space, which is outside the character class, so no
shorter backtracking split can succeed. -/
def collectionMissingMatch (msg : String) : Bool :=
  let l := msg.data
  if "Collection ".data.isPrefixOf l then
    let rest := (l.drop 11).dropWhile regexNameChar
    if " does not exist".data.isPrefixOf rest then
      match rest.drop 15 with
      | [] => false
      | c :: _ => ! jsLineTerminator c
    else false
  else false

/-- The classification in BatchOperation.execute's catch handler: code
8704 with the first 18 characters of the message equal to the
unconfigured-table text, or a message matching the collection-missing
regex. -/
def isTableMissingError (err : CQLResponseError) : Bool :=
  (err.code == some 8704 && err.message.take 18 == "unconfigured table")
  || collectionMissingMatch err.message

/-- A built backend operation handle (CQL*Operation / SQL*Operation).
The concrete adapters are external; the handle records exactly the build
inputs handed to them. -/
structure BackendHandle where
  core : Core
  action : myTypes.action
  keys : DBentry
  table : String
  options : Option String
deriving DecidableEq, BEq, Repr

/-- The slice of BaseOperation state that BatchOperation reads from a
member: its action tag, its table-creation permission, and whether its
backend operation has been built. -/
structure BatchMember where
  action : myTypes.action
  canCreateTable : Bool
  operation : Option BackendHandle
deriving DecidableEq, BEq, Repr, Inhabited

/-- Outcome of one BatchOperation.execute attempt. tableCreation is the
distinguished retry sentinel tableCreationError thrown after the
create-table fan-out. -/
inductive BatchOutcome (ρ : Type) where
  | ok (res : ρ)
  | tableCreation
  | backendFailure (err : CQLResponseError)
  | buildFailure (msg : String)
deriving DecidableEq, BEq, Repr

/-- Observable trace of one BatchOperation.execute attempt: the indices of
the members whose createTable was invoked, the indices of the members
whose done was invoked, and the outcome. -/
structure BatchTrace (ρ : Type) where
  createTableCalls : List Nat
  doneCalls : List Nat
  outcome : BatchOutcome ρ
deriving DecidableEq, BEq, Repr

/-- The BatchOperation class state: the member operations and the
isolation flag. -/
structure BatchOperation where
  operationsArray : List BatchMember
  isolation : Bool
deriving DecidableEq, BEq, Repr

/-- The BatchOperation constructor: rejects any member whose action is
batch or get, otherwise stores the member list and the isolation flag. -/
def BatchOperation.mkChecked (batch : List BatchMember) (isolation : Bool) :
    Except String BatchOperation :=
  if batch.any (fun op => op.action == myTypes.action.batch || op.action == myTypes.action.get) then
    Except.error "Batch cannot contain batch or get operations"
  else
    Except.ok { operationsArray := batch, isolation := isolation }

/-- BatchOperation.push: rejects a batch or get member, otherwise appends
it to the member list. -/
def BatchOperation.push (b : BatchOperation) (operation : BatchMember) :
    Except String BatchOperation :=
  if operation.action == myTypes.action.batch || operation.action == myTypes.action.get then
    Except.error "Batch cannot contain batch or get operations"
  else
    Except.ok { b with operationsArray := b.operationsArray ++ [operation] }

/-- BatchOperation.createAllTables: the indices of the members whose
createTable is invoked, in member order; exactly those with
canCreateTable set. -/
def createAllTables (ops : List BatchMember) : List Nat :=
  (List.range ops.length).filter (fun i => (ops.getD i default).canCreateTable)

/-- BatchOperation.execute, with the backend call's result supplied as a
parameter. buildOperation first fails if any member operation is not
built; on a backend success every member's done fires in member order and
the result is returned unmodified; on a backend error classified as table
missing, createTable fires on every member allowed to create its table
and the retry sentinel is raised; any other backend error is rethrown
unchanged. -/
def BatchOperation.execute {ρ : Type} (b : BatchOperation)
    (backendResult : Except CQLResponseError ρ) : BatchTrace ρ :=
  if b.operationsArray.any (fun op => op.operation.isNone) then
    { createTableCalls := [], doneCalls := [],
      outcome := BatchOutcome.buildFailure "Batch error, a base operation is not built" }
  else
    match backendResult with
    | Except.ok res =>
        { createTableCalls := [], doneCalls := List.range b.operationsArray.length,
          outcome := BatchOutcome.ok res }
    | Except.error err =>
        if isTableMissingError err then
          { createTableCalls := createAllTables b.operationsArray, doneCalls := [],
            outcome := BatchOutcome.tableCreation }
        else
          { createTableCalls := [], doneCalls := [],
            outcome := BatchOutcome.backendFailure err }

/-- Modelled from the spec: the request shape handed to the operation
constructors (myTypes.InternalOperationDescription is not under src/); the
constructors read action, collections, documents, opID, encObject and
options. encObject and options may be absent. -/
structure InternalOperationDescription where
  action : myTypes.action
  collections : List String
  documents : List String
  opID : String
  encObject : Option String
  options : Option String
deriving DecidableEq, BEq, Repr

/-- The SaveOperation class state after construction. object keeps the
TypeScript string-or-undefined shape so that buildOperation's own
undefined check is representable. -/
structure SaveOperation where
  collections : List String
  documents : List String
  table : Option String
  opID : String
  canCreateTable : Bool
  object : Option String
  options : Option String
  operation : Option BackendHandle
deriving DecidableEq, BEq, Repr

/-- The SaveOperation constructor: rejects a documents list whose length
differs from the collections list, and a missing encObject; otherwise the
state starts with table and operation null. -/
def SaveOperation.mkChecked (request : InternalOperationDescription) :
    Except String SaveOperation :=
  if request.documents.length ≠ request.collections.length then
    Except.error "Invalid path length parity for a save operation"
  else
    match request.encObject with
    | none => Except.error "Missing field object for a save operation"
    | some obj =>
        Except.ok { collections := request.collections, documents := request.documents,
                    table := none, opID := request.opID, canCreateTable := false,
                    object := some obj, options := request.options, operation := none }

/-- SaveOperation.buildOperation: fails if object is undefined, then if
table is unresolved; otherwise builds the backend save handle from the
save entry. -/
def SaveOperation.buildOperation (core : Core) (s : SaveOperation) :
    Except String SaveOperation :=
  match s.object with
  | none => Except.error "Operation entry undefined"
  | some obj =>
      match s.table with
      | none => Except.error "Undefined table"
      | some t =>
          let handle : BackendHandle :=
            { core := core, action := myTypes.action.save,
              keys := SaveOperation.buildEntry s.collections s.documents obj,
              table := t, options := s.options }
          Except.ok { s with operation := some handle }

/-- BaseOperation.execute: fails when no backend operation was built,
otherwise delegates to the built handle; run stands for the backend. -/
def BaseOperation.execute {ρ : Type} (operation : Option BackendHandle)
    (run : BackendHandle → ρ) : Except String ρ :=
  match operation with
  | none => Except.error "unable to execute CQL operation, query not built"
  | some h => Except.ok (run h)

/-- Modelled from the spec: the queryResults part of the result envelope
(myTypes.ServerAnswer is not under src/), optionally carrying the raw
result list and a pagination token; rest stands for its remaining fields,
which this layer never touches. -/
structure QueryResults (α β : Type) where
  allResultsEnc : Option (List α)
  pageToken : Option String
  rest : β
deriving DecidableEq, BEq, Repr

/-- Modelled from the spec: the result envelope, optionally carrying
queryResults; rest stands for its remaining fields, untouched here. -/
structure ServerAnswer (α β γ : Type) where
  queryResults : Option (QueryResults α β)
  rest : γ
deriving DecidableEq, BEq, Repr

/-- Modelled from the spec: the external sorter (utils/orderer is not
under src/); only its contract, sort a result list by a named field, is
used. The field argument is the last collection name, or none when the
path is empty (JavaScript would pass undefined). -/
structure Orderer (α : Type) where
  order : List α → Option String → List α

/-- The GetOperation class state after construction: constResToken holds
the caller-supplied continuation token, orderer the sorter built from the
optional ordering spec. -/
structure GetOperation (α : Type) where
  collections : List String
  documents : List String
  table : Option String
  opID : String
  canCreateTable : Bool
  options : Option String
  constResToken : Option String
  orderer : Option (Orderer α)
  operation : Option BackendHandle

/-- GetOperation.buildOperation: fails if table is unresolved, otherwise
builds the backend get handle from the base entry. -/
def GetOperation.buildOperation {α : Type} (core : Core) (g : GetOperation α) :
    Except String (GetOperation α) :=
  match g.table with
  | none => Except.error "Undefined table"
  | some t =>
      let handle : BackendHandle :=
        { core := core, action := myTypes.action.get,
          keys := BaseOperation.buildEntry g.collections g.documents,
          table := t, options := g.options }
      Except.ok { g with operation := some handle }

/-- The post-processing GetOperation.execute applies to the backend
answer: stamp the construction-time continuation token over
queryResults.pageToken when both exist, then, when an orderer exists and
queryResults.allResultsEnc exists, replace that list by the sorter's
output for the last collection name of the path. -/
def GetOperation.postProcess {α β γ : Type} (constResToken : Option String)
    (orderer : Option (Orderer α)) (collections : List String)
    (res : ServerAnswer α β γ) : ServerAnswer α β γ :=
  let res1 :=
    match constResToken, res.queryResults with
    | some t, some qr => { res with queryResults := some { qr with pageToken := some t } }
    | _, _ => res
  match orderer, res1.queryResults with
  | some o, some qr =>
      match qr.allResultsEnc with
      | some l =>
          let qr2 := { qr with allResultsEnc := some (o.order l collections.getLast?) }
          { res1 with queryResults := some qr2 }
      | none => res1
  | _, _ => res1

/-- GetOperation.execute: the base execute followed by the pagination and
ordering post-processing. -/
def GetOperation.execute {α β γ : Type} (g : GetOperation α)
    (run : BackendHandle → ServerAnswer α β γ) : Except String (ServerAnswer α β γ) :=
  match g.operation with
  | none => Except.error "unable to execute CQL operation, query not built"
  | some h =>
      Except.ok (GetOperation.postProcess g.constResToken g.orderer g.collections (run h))

/-- The RemoveOperation class state after construction. -/
structure RemoveOperation where
  collections : List String
  documents : List String
  table : Option String
  opID : String
  canCreateTable : Bool
  operation : Option BackendHandle
deriving DecidableEq, BEq, Repr

/-- RemoveOperation.buildOperation: fails if table is unresolved,
otherwise builds the backend remove handle from the base entry. -/
def RemoveOperation.buildOperation (core : Core) (r : RemoveOperation) :
    Except String RemoveOperation :=
  match r.table with
  | none => Except.error "Undefined table"
  | some t =>
      let handle : BackendHandle :=
        { core := core, action := myTypes.action.remove,
          keys := BaseOperation.buildEntry r.collections r.documents,
          table := t, options := none }
      Except.ok { r with operation := some handle }

/-- Sample built backend handle used by concrete witnesses. -/
def sampleHandle : BackendHandle :=
  { core := Core.CQL, action := myTypes.action.save, keys := [("users", "id1")],
    table := "users", options := none }

/-- Sample batch of three built members, two of which may create their
table, used by concrete witnesses. -/
def sampleMembers : List BatchMember :=
  [{ action := myTypes.action.save, canCreateTable := true, operation := some sampleHandle },
   { action := myTypes.action.remove, canCreateTable := false, operation := some sampleHandle },
   { action := myTypes.action.save, canCreateTable := true, operation := some sampleHandle }]

/-- Sample backend error matching the unconfigured-table signal. -/
def sampleTableMissingError : CQLResponseError :=
  { code := some 8704, message := "unconfigured table ted" }

/-- Sample backend error matching neither table-missing signal. -/
def sampleOtherError : CQLResponseError :=
  { code := some 500, message := "backend unavailable" }

/-- Sample unbuilt save member used by composition witnesses. -/
def saveMember : BatchMember :=
  { action := myTypes.action.save, canCreateTable := false, operation := none }

/-- Sample unbuilt get member used by composition witnesses. -/
def getMember : BatchMember :=
  { action := myTypes.action.get, canCreateTable := false, operation := none }

/-- Sample unbuilt remove member used by composition witnesses. -/
def removeMember : BatchMember :=
  { action := myTypes.action.remove, canCreateTable := false, operation := none }

/-- Sample unbuilt nested-batch member used by composition witnesses. -/
def nestedBatchMember : BatchMember :=
  { action := myTypes.action.batch, canCreateTable := false, operation := none }

/-- Sample constructed save operation whose table is still unresolved. -/
def sampleUnbuiltSave : SaveOperation :=
  { collections := ["users"], documents := ["id1"], table := none, opID := "op2",
    canCreateTable := false, object := some "payload", options := none, operation := none }

/-- Sample save operation whose payload is undefined (a state the checked
constructor never produces). -/
def sampleSaveNoObject : SaveOperation :=
  { collections := ["users"], documents := ["id1"], table := none, opID := "op2b",
    canCreateTable := false, object := none, options := none, operation := none }

/-- Sample constructed get operation whose table is still unresolved. -/
def sampleUnbuiltGet : GetOperation Nat :=
  { collections := ["users"], documents := ["id1"], table := none, opID := "op3",
    canCreateTable := false, options := none, constResToken := none, orderer := none,
    operation := none }

/-- Sample constructed remove operation whose table is still
unresolved. -/
def sampleUnbuiltRemove : RemoveOperation :=
  { collections := ["users"], documents := ["id1"], table := none, opID := "op4",
    canCreateTable := false, operation := none }

/-- Sample save request accepted by the checked constructor. -/
def sampleRequest : InternalOperationDescription :=
  { action := myTypes.action.save, collections := ["users"], documents := ["id1"],
    opID := "op2", encObject := some "payload", options := none }

/-- Pagination token of the answer's queryResults, when that object
exists. -/
def answerPageToken {α β γ : Type} (res : ServerAnswer α β γ) : Option (Option String) :=
  res.queryResults.map (fun qr => qr.pageToken)

/-- Raw result list of the answer's queryResults, when that object
exists. -/
def answerResults {α β γ : Type} (res : ServerAnswer α β γ) : Option (Option (List α)) :=
  res.queryResults.map (fun qr => qr.allResultsEnc)

/-- Sample sorter used by concrete witnesses: reverses the list whatever
the field, a permutation as the sorter contract asks. -/
def sampleOrderer : Orderer Nat :=
  { order := fun l _ => l.reverse }

/-- Sample built GetOperation with a continuation token and an ordering
spec, used by concrete witnesses. -/
def sampleGet : GetOperation Nat :=
  { collections := ["users", "orders"], documents := ["id1"], table := some "users_orders",
    opID := "op1", canCreateTable := false, options := none,
    constResToken := some "T1", orderer := some sampleOrderer,
    operation := some sampleHandle }

/-- Sample backend answer with a result list and a backend-minted
pagination token, used by concrete witnesses. -/
def sampleAnswer : ServerAnswer Nat Bool Nat :=
  { queryResults := some { allResultsEnc := some [3, 1, 2], pageToken := some "backendTok",
                           rest := true },
    rest := 7 }

/-- Sample backend execution returning sampleAnswer. -/
def sampleRun : BackendHandle → ServerAnswer Nat Bool Nat :=
  fun _ => sampleAnswer

section BatchTheorems

/-- Helper: a batch whose members are all built passes the built check. -/
theorem any_isNone_eq_false (ops : List BatchMember)
    (hbuilt : ∀ op ∈ ops, op.operation.isSome) :
    (ops.any (fun op => op.operation.isNone)) = false := by
  rw [List.any_eq_false]
  intro op hop
  have h := hbuilt op hop
  cases hopn : op.operation with
  | none => rw [hopn] at h; simp at h
  | some v => simp [hopn]

/-- Helper: membership in createAllTables is exactly being the index of a
member with table-creation permission. -/
theorem mem_createAllTables (ops : List BatchMember) (i : Nat) :
    i ∈ createAllTables ops ↔
      ∃ h : i < ops.length, (ops.get ⟨i, h⟩).canCreateTable = true := by
  unfold createAllTables
  rw [List.mem_filter, List.mem_range]
  constructor
  · rintro ⟨hlt, hcan⟩
    refine ⟨hlt, ?_⟩
    rwa [List.getD_eq_get?, List.get?_eq_get hlt, Option.getD_some] at hcan
  · rintro ⟨hlt, hcan⟩
    refine ⟨hlt, ?_⟩
    rwa [List.getD_eq_get?, List.get?_eq_get hlt, Option.getD_some]

/-- C1: when the backend call of a fully built batch fails with an error
classified as table missing, execute invokes createTable exactly on the
members whose canCreateTable is true (each once, none of the others),
invokes no done hook, and raises the retry sentinel instead of the
original error. -/
theorem batch_execute_table_missing_recovery {ρ : Type} (ops : List BatchMember)
    (iso : Bool) (err : CQLResponseError)
    (hbuilt : ∀ op ∈ ops, op.operation.isSome)
    (hclass : isTableMissingError err = true) :
    BatchOperation.execute { operationsArray := ops, isolation := iso }
        (Except.error err : Except CQLResponseError ρ) =
      { createTableCalls := createAllTables ops, doneCalls := [],
        outcome := BatchOutcome.tableCreation } ∧
    (createAllTables ops).Nodup ∧
    ∀ i, i ∈ createAllTables ops ↔
      ∃ h : i < ops.length, (ops.get ⟨i, h⟩).canCreateTable = true := by
  refine ⟨?_, ?_, fun i => mem_createAllTables ops i⟩
  · unfold BatchOperation.execute
    rw [any_isNone_eq_false ops hbuilt]
    simp [hclass]
  · exact List.Nodup.filter _ (List.nodup_range _)

/-- C2: when the backend call of a fully built batch fails with an error
not classified as table missing, execute performs no createTable call, no
done call, and rethrows the original error unmodified. -/
theorem batch_execute_other_error_passthrough {ρ : Type} (ops : List BatchMember)
    (iso : Bool) (err : CQLResponseError)
    (hbuilt : ∀ op ∈ ops, op.operation.isSome)
    (hclass : isTableMissingError err = false) :
    BatchOperation.execute { operationsArray := ops, isolation := iso }
        (Except.error err : Except CQLResponseError ρ) =
      { createTableCalls := [], doneCalls := [],
        outcome := BatchOutcome.backendFailure err } := by
  unfold BatchOperation.execute
  rw [any_isNone_eq_false ops hbuilt]
  simp [hclass]

/-- C6: when the backend call of a fully built batch succeeds, execute
invokes done exactly once per member, in member order, and returns the
backend result unmodified. -/
theorem batch_execute_success_done {ρ : Type} (ops : List BatchMember)
    (iso : Bool) (res : ρ)
    (hbuilt : ∀ op ∈ ops, op.operation.isSome) :
    BatchOperation.execute { operationsArray := ops, isolation := iso }
        (Except.ok res : Except CQLResponseError ρ) =
      { createTableCalls := [], doneCalls := List.range ops.length,
        outcome := BatchOutcome.ok res } ∧
    (List.range ops.length).Nodup ∧
    ∀ i, i ∈ List.range ops.length ↔ i < ops.length := by
  refine ⟨?_, List.nodup_range _, fun i => List.mem_range⟩
  unfold BatchOperation.execute
  rw [any_isNone_eq_false ops hbuilt]
  simp

/-- C5: composing a batch around a member whose action is get or batch
fails, as does pushing such a member into an existing batch; members
whose action is save or remove are accepted by both. -/
theorem batch_composition_rejects_get_and_batch (ops : List BatchMember) (iso : Bool) :
    ((∃ op ∈ ops, op.action = myTypes.action.get ∨ op.action = myTypes.action.batch) →
      BatchOperation.mkChecked ops iso =
        Except.error "Batch cannot contain batch or get operations") ∧
    ((∀ op ∈ ops, op.action = myTypes.action.save ∨ op.action = myTypes.action.remove) →
      BatchOperation.mkChecked ops iso =
        Except.ok { operationsArray := ops, isolation := iso }) ∧
    (∀ b : BatchOperation, ∀ op : BatchMember,
      (op.action = myTypes.action.get ∨ op.action = myTypes.action.batch) →
      b.push op = Except.error "Batch cannot contain batch or get operations") ∧
    (∀ b : BatchOperation, ∀ op : BatchMember,
      (op.action = myTypes.action.save ∨ op.action = myTypes.action.remove) →
      b.push op =
        Except.ok { operationsArray := b.operationsArray ++ [op], isolation := b.isolation }) := by
  refine ⟨?_, ?_, ?_, ?_⟩
  · rintro ⟨op, hop, hact⟩
    unfold BatchOperation.mkChecked
    have hany : ops.any
        (fun op => op.action == myTypes.action.batch || op.action == myTypes.action.get) = true := by
      rw [List.any_eq_true]
      refine ⟨op, hop, ?_⟩
      rcases hact with h | h <;> simp [h] <;> decide
    rw [hany]
    simp
  · intro hall
    unfold BatchOperation.mkChecked
    have hany : ops.any
        (fun op => op.action == myTypes.action.batch || op.action == myTypes.action.get) = false := by
      rw [List.any_eq_false]
      intro op hop
      rcases hall op hop with h | h <;> simp [h] <;> decide
    rw [hany]
    simp
  · intro b op hact
    unfold BatchOperation.push
    rcases hact with h | h <;> simp [h] <;> decide
  · intro b op hact
    unfold BatchOperation.push
    rcases hact with h | h <;> simp [h] <;> decide

/-- Witness for C1: three built members, two allowed to create their
table, hit by a code 8704 unconfigured-table error: exactly the two
eligible members (indices 0 and 2) receive a createTable call and the
sentinel is raised. -/
theorem batch_execute_table_missing_recovery_witness :
    (BatchOperation.execute { operationsArray := sampleMembers, isolation := true }
        (Except.error sampleTableMissingError : Except CQLResponseError Unit) =
      { createTableCalls := createAllTables sampleMembers, doneCalls := [],
        outcome := BatchOutcome.tableCreation }) ∧
    createAllTables sampleMembers = [0, 2] :=
  ⟨(batch_execute_table_missing_recovery sampleMembers true sampleTableMissingError
      (by simp [sampleMembers]) (by decide)).1, by decide⟩

/-- Witness for C2: the same batch hit by an unrelated backend error: no
createTable call, the error rethrown as-is. -/
theorem batch_execute_other_error_passthrough_witness :
    BatchOperation.execute { operationsArray := sampleMembers, isolation := true }
        (Except.error sampleOtherError : Except CQLResponseError Unit) =
      { createTableCalls := [], doneCalls := [],
        outcome := BatchOutcome.backendFailure sampleOtherError } :=
  batch_execute_other_error_passthrough sampleMembers true sampleOtherError
    (by simp [sampleMembers]) (by decide)

/-- Witness for C6: the same batch on a successful backend call: done
fires once per member, in order, and the result is returned unchanged. -/
theorem batch_execute_success_done_witness :
    BatchOperation.execute { operationsArray := sampleMembers, isolation := false }
        (Except.ok 42 : Except CQLResponseError Nat) =
      { createTableCalls := [], doneCalls := [0, 1, 2],
        outcome := BatchOutcome.ok 42 } :=
  (batch_execute_success_done sampleMembers false 42 (by simp [sampleMembers])).1

/-- Witness for C5: a get member fails composition and push, a batch
member fails push, save and remove members are accepted. -/
theorem batch_composition_rejects_get_and_batch_witness :
    (BatchOperation.mkChecked [saveMember, getMember] true =
      Except.error "Batch cannot contain batch or get operations") ∧
    (BatchOperation.mkChecked [saveMember, removeMember] true =
      Except.ok { operationsArray := [saveMember, removeMember], isolation := true }) ∧
    (BatchOperation.push { operationsArray := [], isolation := false } nestedBatchMember =
      Except.error "Batch cannot contain batch or get operations") ∧
    (BatchOperation.push { operationsArray := [], isolation := false } removeMember =
      Except.ok { operationsArray := [removeMember], isolation := false }) :=
  ⟨(batch_composition_rejects_get_and_batch [saveMember, getMember] true).1
      (by simp [saveMember, getMember]),
   (batch_composition_rejects_get_and_batch [saveMember, removeMember] true).2.1
      (by simp [saveMember, removeMember]),
   (batch_composition_rejects_get_and_batch [] true).2.2.1
      { operationsArray := [], isolation := false } nestedBatchMember (Or.inr rfl),
   (batch_composition_rejects_get_and_batch [] true).2.2.2
      { operationsArray := [], isolation := false } removeMember (Or.inr rfl)⟩

end BatchTheorems

section GetTheorems

/-- Helper: when the backend answer has no queryResults, the Get
post-processing leaves it entirely untouched. -/
theorem postProcess_none {α β γ : Type} (tok : Option String) (ord : Option (Orderer α))
    (cols : List String) (res : ServerAnswer α β γ)
    (hqr : res.queryResults = none) :
    GetOperation.postProcess tok ord cols res = res := by
  obtain ⟨qres, r⟩ := res
  simp only at hqr
  subst hqr
  cases tok <;> cases ord <;> rfl

/-- Helper: when the backend answer has queryResults, the Get
post-processing keeps every envelope field except the pagination token
(overwritten when a construction token exists) and the raw result list
(replaced by the sorter output when an orderer and a list exist). -/
theorem postProcess_some {α β γ : Type} (tok : Option String) (ord : Option (Orderer α))
    (cols : List String) (res : ServerAnswer α β γ) (qr : QueryResults α β)
    (hqr : res.queryResults = some qr) :
    ∃ qr2, GetOperation.postProcess tok ord cols res =
        { queryResults := some qr2, rest := res.rest } ∧
      qr2.pageToken = (match tok with | some t => some t | none => qr.pageToken) ∧
      qr2.rest = qr.rest ∧
      qr2.allResultsEnc = (match ord, qr.allResultsEnc with
        | some o, some l => some (o.order l cols.getLast?)
        | _, _ => qr.allResultsEnc) := by
  obtain ⟨qres, r⟩ := res
  simp only at hqr
  subst hqr
  obtain ⟨enc, pt, qrrest⟩ := qr
  cases tok <;> cases ord <;> cases enc <;>
    exact ⟨_, rfl, rfl, rfl, rfl⟩

/-- C7: a GetOperation built with a continuation token always stamps that
token verbatim over queryResults.pageToken whenever the backend answer
carries a queryResults object, overwriting any backend token; without a
construction token the backend's own token is left as-is. -/
theorem get_execute_pageToken_passthrough {α β γ : Type} (g : GetOperation α)
    (run : BackendHandle → ServerAnswer α β γ) (h : BackendHandle)
    (hop : g.operation = some h) :
    (∀ t qr, g.constResToken = some t → (run h).queryResults = some qr →
      ∃ res2, GetOperation.execute g run = Except.ok res2 ∧
        answerPageToken res2 = some (some t)) ∧
    (g.constResToken = none →
      ∃ res2, GetOperation.execute g run = Except.ok res2 ∧
        answerPageToken res2 = answerPageToken (run h)) := by
  constructor
  · intro t qr htok hqr
    obtain ⟨qr2, heq, hpt, _, _⟩ :=
      postProcess_some (some t) g.orderer g.collections (run h) qr hqr
    refine ⟨GetOperation.postProcess g.constResToken g.orderer g.collections (run h), ?_, ?_⟩
    · unfold GetOperation.execute
      rw [hop]
    · rw [htok, heq]
      simp [answerPageToken, hpt]
  · intro htok
    refine ⟨GetOperation.postProcess g.constResToken g.orderer g.collections (run h), ?_, ?_⟩
    · unfold GetOperation.execute
      rw [hop]
    · cases hqr : (run h).queryResults with
      | none =>
          rw [htok, postProcess_none none g.orderer g.collections (run h) hqr]
      | some qr =>
          obtain ⟨qr2, heq, hpt, _, _⟩ :=
            postProcess_some none g.orderer g.collections (run h) qr hqr
          rw [htok, heq]
          simp [answerPageToken, hpt, hqr]

/-- C8: a GetOperation built with an ordering spec replaces a present raw
result list by the external sorter's output for the last collection name
of the path (a permutation of the original list whenever the sorter meets
its contract); without an ordering spec the list is returned exactly as
the backend produced it. -/
theorem get_execute_ordering {α β γ : Type} (g : GetOperation α)
    (run : BackendHandle → ServerAnswer α β γ) (h : BackendHandle)
    (hop : g.operation = some h) :
    (∀ o qr l, g.orderer = some o → (run h).queryResults = some qr →
      qr.allResultsEnc = some l → l ≠ [] →
      ∃ res2, GetOperation.execute g run = Except.ok res2 ∧
        answerResults res2 = some (some (o.order l g.collections.getLast?)) ∧
        ((∀ xs f, (o.order xs f).Perm xs) →
          (o.order l g.collections.getLast?).Perm l)) ∧
    (g.orderer = none →
      ∃ res2, GetOperation.execute g run = Except.ok res2 ∧
        answerResults res2 = answerResults (run h)) := by
  constructor
  · intro o qr l hord hqr henc _hne
    obtain ⟨qr2, heq, _, _, hres⟩ :=
      postProcess_some g.constResToken (some o) g.collections (run h) qr hqr
    refine ⟨GetOperation.postProcess g.constResToken g.orderer g.collections (run h), ?_, ?_, ?_⟩
    · unfold GetOperation.execute
      rw [hop]
    · rw [hord, heq]
      simp [answerResults, hres, henc]
    · intro hperm
      exact hperm l g.collections.getLast?
  · intro hord
    refine ⟨GetOperation.postProcess g.constResToken g.orderer g.collections (run h), ?_, ?_⟩
    · unfold GetOperation.execute
      rw [hop]
    · cases hqr : (run h).queryResults with
      | none =>
          rw [hord, postProcess_none g.constResToken none g.collections (run h) hqr]
      | some qr =>
          obtain ⟨qr2, heq, _, _, hres⟩ :=
            postProcess_some g.constResToken none g.collections (run h) qr hqr
          rw [hord, heq]
          simp [answerResults, hres, hqr]

/-- C10: GetOperation.execute returns the backend envelope with every
field other than queryResults.pageToken and queryResults.allResultsEnc
unchanged; an envelope without queryResults comes back entirely
untouched, whatever token or ordering spec the operation carries. -/
theorem get_execute_frame {α β γ : Type} (g : GetOperation α)
    (run : BackendHandle → ServerAnswer α β γ) (h : BackendHandle)
    (hop : g.operation = some h) :
    ∃ res2, GetOperation.execute g run = Except.ok res2 ∧
      res2.rest = (run h).rest ∧
      ((run h).queryResults = none → res2 = run h) ∧
      (∀ qr, (run h).queryResults = some qr →
        ∃ qr2, res2.queryResults = some qr2 ∧ qr2.rest = qr.rest) := by
  refine ⟨GetOperation.postProcess g.constResToken g.orderer g.collections (run h), ?_, ?_, ?_, ?_⟩
  · unfold GetOperation.execute
    rw [hop]
  · cases hqr : (run h).queryResults with
    | none => rw [postProcess_none g.constResToken g.orderer g.collections (run h) hqr]
    | some qr =>
        obtain ⟨qr2, heq, _, _, _⟩ :=
          postProcess_some g.constResToken g.orderer g.collections (run h) qr hqr
        rw [heq]
  · intro hqr
    rw [postProcess_none g.constResToken g.orderer g.collections (run h) hqr]
  · intro qr hqr
    obtain ⟨qr2, heq, _, hrest, _⟩ :=
      postProcess_some g.constResToken g.orderer g.collections (run h) qr hqr
    exact ⟨qr2, by rw [heq], hrest⟩

/-- Witness for C7: the sample GetOperation carries token T1 and the
backend answered with token backendTok; the result carries T1. -/
theorem get_execute_pageToken_passthrough_witness :
    ∃ res2, GetOperation.execute sampleGet sampleRun = Except.ok res2 ∧
      answerPageToken res2 = some (some "T1") :=
  (get_execute_pageToken_passthrough sampleGet sampleRun sampleHandle rfl).1 "T1"
    { allResultsEnc := some [3, 1, 2], pageToken := some "backendTok", rest := true } rfl rfl

/-- Witness for C8: the sample GetOperation carries the reversing sorter;
the backend's list 3,1,2 comes back as the sorter output for the last
collection name. -/
theorem get_execute_ordering_witness :
    ∃ res2, GetOperation.execute sampleGet sampleRun = Except.ok res2 ∧
      answerResults res2 =
        some (some (sampleOrderer.order [3, 1, 2] sampleGet.collections.getLast?)) ∧
      ((∀ xs f, (sampleOrderer.order xs f).Perm xs) →
        (sampleOrderer.order [3, 1, 2] sampleGet.collections.getLast?).Perm [3, 1, 2]) :=
  (get_execute_ordering sampleGet sampleRun sampleHandle rfl).1 sampleOrderer
    { allResultsEnc := some [3, 1, 2], pageToken := some "backendTok", rest := true }
    [3, 1, 2] rfl rfl rfl (by decide)

/-- Witness for C10: on the sample GetOperation and backend answer, the
envelope's other fields survive execute unchanged. -/
theorem get_execute_frame_witness :
    ∃ res2, GetOperation.execute sampleGet sampleRun = Except.ok res2 ∧
      res2.rest = (sampleRun sampleHandle).rest ∧
      ((sampleRun sampleHandle).queryResults = none → res2 = sampleRun sampleHandle) ∧
      (∀ qr, (sampleRun sampleHandle).queryResults = some qr →
        ∃ qr2, res2.queryResults = some qr2 ∧ qr2.rest = qr.rest) :=
  get_execute_frame sampleGet sampleRun sampleHandle rfl

end GetTheorems

section GuardTheorems

/-- C9: buildOperation on an operation whose table is still null fails
with the undefined-table build error (or the operation-entry error for a
save whose payload is undefined); a freshly constructed save starts with
both table and backendOperation null; and execute before a successful
buildOperation fails with the query-not-built error for every backend,
so the backend is never contacted. -/
theorem operation_guards :
    (∀ (core : Core) (s : SaveOperation), s.object.isSome → s.table = none →
      SaveOperation.buildOperation core s = Except.error "Undefined table") ∧
    (∀ (core : Core) (s : SaveOperation), s.object = none →
      SaveOperation.buildOperation core s = Except.error "Operation entry undefined") ∧
    (∀ (core : Core) (α : Type) (g : GetOperation α), g.table = none →
      GetOperation.buildOperation core g = Except.error "Undefined table") ∧
    (∀ (core : Core) (r : RemoveOperation), r.table = none →
      RemoveOperation.buildOperation core r = Except.error "Undefined table") ∧
    (∀ req s, SaveOperation.mkChecked req = Except.ok s →
      s.operation = none ∧ s.table = none) ∧
    (∀ (ρ : Type) (run : BackendHandle → ρ),
      BaseOperation.execute none run =
        Except.error "unable to execute CQL operation, query not built") ∧
    (∀ (α β γ : Type) (g : GetOperation α) (run : BackendHandle → ServerAnswer α β γ),
      g.operation = none →
      GetOperation.execute g run =
        Except.error "unable to execute CQL operation, query not built") := by
  refine ⟨?_, ?_, ?_, ?_, ?_, ?_, ?_⟩
  · intro core s hobj htab
    cases hobj2 : s.object with
    | none => rw [hobj2] at hobj; simp at hobj
    | some obj => simp [SaveOperation.buildOperation, hobj2, htab]
  · intro core s hobj
    simp [SaveOperation.buildOperation, hobj]
  · intro core α g htab
    simp [GetOperation.buildOperation, htab]
  · intro core r htab
    simp [RemoveOperation.buildOperation, htab]
  · intro req s h
    unfold SaveOperation.mkChecked at h
    split at h
    · simp at h
    · cases hobj : req.encObject with
      | none => rw [hobj] at h; simp at h
      | some obj =>
          rw [hobj] at h
          simp only [Except.ok.injEq] at h
          subst h
          exact ⟨rfl, rfl⟩
  · intro ρ run
    rfl
  · intro α β γ g run h
    simp [GetOperation.execute, h]

/-- Witness for C9: the sample unresolved save, get and remove operations
fail buildOperation; the sample request constructs a save with table and
backendOperation null; and execute on an unbuilt operation fails for a
concrete backend. -/
theorem operation_guards_witness :
    SaveOperation.buildOperation Core.CQL sampleUnbuiltSave =
      Except.error "Undefined table" ∧
    SaveOperation.buildOperation Core.CQL sampleSaveNoObject =
      Except.error "Operation entry undefined" ∧
    GetOperation.buildOperation Core.CQL sampleUnbuiltGet =
      Except.error "Undefined table" ∧
    RemoveOperation.buildOperation Core.CQL sampleUnbuiltRemove =
      Except.error "Undefined table" ∧
    (sampleUnbuiltSave.operation = none ∧ sampleUnbuiltSave.table = none) ∧
    BaseOperation.execute none (fun _ => (0 : Nat)) =
      Except.error "unable to execute CQL operation, query not built" ∧
    GetOperation.execute sampleUnbuiltGet sampleRun =
      Except.error "unable to execute CQL operation, query not built" :=
  ⟨operation_guards.1 Core.CQL sampleUnbuiltSave rfl rfl,
   operation_guards.2.1 Core.CQL sampleSaveNoObject rfl,
   operation_guards.2.2.1 Core.CQL Nat sampleUnbuiltGet rfl,
   operation_guards.2.2.2.1 Core.CQL sampleUnbuiltRemove rfl,
   operation_guards.2.2.2.2.1 sampleRequest sampleUnbuiltSave (by rfl),
   operation_guards.2.2.2.2.2.1 Nat (fun _ => (0 : Nat)),
   operation_guards.2.2.2.2.2.2 Nat Bool Nat sampleUnbuiltGet sampleRun rfl⟩

end GuardTheorems

section TableNameTheorems

/-- Helper: the name-building foldl accumulates the flattened
name-separator pairs after the initial accumulator. -/
theorem foldl_append_pairs (p : List String) (init : List String) :
    p.foldl (fun acc c => acc ++ [c, "_"]) init =
      init ++ p.bind (fun c => [c, "_"]) := by
  induction p generalizing init with
  | nil => simp
  | cons c rest ih => simp [ih, List.append_assoc]

/-- Helper: the characters of a joined string list are the joined
character lists. -/
theorem data_join (l : List String) :
    (String.join l).data = (l.map String.data).join := by
  have main : ∀ (l : List String) (init : String),
      (l.foldl (fun r s => r ++ s) init).data = init.data ++ (l.map String.data).join := by
    intro l
    induction l with
    | nil => intro init; simp
    | cons a rest ih => intro init; simp [ih, List.append_assoc]
  exact main l ""

/-- Helper: joining a cons splits off its head. -/
theorem join_cons (a : String) (l : List String) :
    String.join (a :: l) = a ++ String.join l :=
  String.ext (by simp [data_join])

/-- Helper: the joined dropped-last pair list of a non-empty path is the
separator join of the path. -/
theorem join_dropLast_bind (p : List String) (hp : p ≠ []) :
    String.join ((p.bind (fun c => [c, "_"])).dropLast) = sepJoin p := by
  induction p with
  | nil => cases hp rfl
  | cons c rest ih =>
    cases rest with
    | nil =>
        show String.join ([c, "_"].dropLast) = sepJoin [c]
        apply String.ext
        simp [data_join, sepJoin]
    | cons d rest2 =>
        have hlist : (c :: d :: rest2).bind (fun c => [c, "_"]) =
            c :: "_" :: (d :: rest2).bind (fun c => [c, "_"]) := rfl
        have hbind : (d :: rest2).bind (fun c => [c, "_"]) =
            d :: "_" :: rest2.bind (fun c => [c, "_"]) := rfl
        rw [hlist, hbind, List.dropLast_cons₂, List.dropLast_cons₂, join_cons, join_cons]
        rw [← hbind, ih (by simp)]
        apply String.ext
        simp [sepJoin]

/-- Helper: buildTableName of a non-empty path is the separator join the
spec describes. -/
theorem buildTableName_eq_sepJoin (p : List String) (hp : p ≠ []) :
    buildTableName p = sepJoin p := by
  have hfold : buildTableName p =
      String.join ((p.bind (fun c => [c, "_"])).dropLast) := by
    show String.join ((p.foldl (fun acc c => acc ++ [c, "_"]) []).dropLast) = _
    rw [foldl_append_pairs p []]
    rfl
  rw [hfold]
  exact join_dropLast_bind p hp

/-- Helper: a separator-free block followed by the separator determines
the split point uniquely. -/
theorem append_sep_inj (a : List Char) (x : List Char) :
    ∀ (b y : List Char), ('_' : Char) ∉ a → ('_' : Char) ∉ b →
      a ++ '_' :: x = b ++ '_' :: y → a = b ∧ x = y := by
  induction a with
  | nil =>
      intro b y _ hb h
      cases b with
      | nil => simpa using h
      | cons d b2 =>
          simp only [List.nil_append, List.cons_append, List.cons.injEq] at h
          exact absurd (h.1 ▸ List.mem_cons_self d b2) (by simpa [← h.1] using hb)
  | cons c a2 ih =>
      intro b y ha hb h
      cases b with
      | nil =>
          simp only [List.nil_append, List.cons_append, List.cons.injEq] at h
          exact absurd (show ('_' : Char) ∈ c :: a2 by
            rw [h.1]; exact List.mem_cons_self _ _) ha
      | cons d b2 =>
          simp only [List.cons_append, List.cons.injEq] at h
          obtain ⟨hcd, htail⟩ := h
          have := ih b2 y (fun hm => ha (List.mem_cons_of_mem c hm))
            (fun hm => hb (List.mem_cons_of_mem d hm)) htail
          exact ⟨by rw [hcd, this.1], this.2⟩

/-- Helper: joinData is injective on equal-length lists of separator-free
blocks. -/
theorem joinData_inj (p : List (List Char)) :
    ∀ (q : List (List Char)), p.length = q.length →
      (∀ l ∈ p, ('_' : Char) ∉ l) → (∀ l ∈ q, ('_' : Char) ∉ l) →
      joinData p = joinData q → p = q := by
  induction p with
  | nil =>
      intro q hlen _ _ _
      cases q with
      | nil => rfl
      | cons _ _ => simp at hlen
  | cons a p2 ih =>
      intro q hlen hp hq h
      cases q with
      | nil => simp at hlen
      | cons b q2 =>
          cases p2 with
          | nil =>
              cases q2 with
              | nil => rw [show joinData [a] = a from rfl, show joinData [b] = b from rfl] at h; rw [h]
              | cons _ _ => simp at hlen
          | cons a2 p3 =>
              cases q2 with
              | nil => simp at hlen
              | cons b2 q3 =>
                  have hsplit : a ++ '_' :: joinData (a2 :: p3) =
                      b ++ '_' :: joinData (b2 :: q3) := h
                  obtain ⟨hab, hrest⟩ := append_sep_inj a (joinData (a2 :: p3)) b
                    (joinData (b2 :: q3)) (hp a (List.mem_cons_self a (a2 :: p3)))
                    (hq b (List.mem_cons_self b (b2 :: q3))) hsplit
                  have htails : (a2 :: p3) = (b2 :: q3) :=
                    ih (b2 :: q3) (by simpa using hlen)
                      (fun l hl => hp l (List.mem_cons_of_mem a hl))
                      (fun l hl => hq l (List.mem_cons_of_mem b hl)) hrest
                  rw [hab, htails]

/-- Helper: the characters of the separator join are joinData of the
element characters. -/
theorem sepJoin_data (p : List String) :
    (sepJoin p).data = joinData (p.map String.data) := by
  induction p with
  | nil => rfl
  | cons c rest ih =>
      cases rest with
      | nil => rfl
      | cons d rest2 =>
          show (c ++ "_" ++ sepJoin (d :: rest2)).data =
            c.data ++ '_' :: joinData ((d :: rest2).map String.data)
          rw [String.data_append, String.data_append, ih]
          simp

/-- The claim C4 as frozen: the same-length, elementwise-distinct
hypotheses do not make the naming injective, because an element may
itself contain the separator. -/
theorem buildTableName_injectivity_counterexample :
    (["a_b", "c"] : List String) ≠ ["a", "b_c"] ∧
    (["a_b", "c"] : List String).length = (["a", "b_c"] : List String).length ∧
    (["a_b", "c"] : List String).Nodup ∧
    (["a", "b_c"] : List String).Nodup ∧
    buildTableName ["a_b", "c"] = buildTableName ["a", "b_c"] := by
  decide

/-- C4 as amended: buildTableName of a non-empty path concatenates the
collection names with a single underscore between consecutive names and
no leading or trailing separator, and the naming is injective for
distinct paths of the same length with distinct elements provided no
element contains the underscore separator itself. -/
theorem buildTableName_spec (p : List String) (hp : p ≠ []) :
    buildTableName p = sepJoin p ∧
    ∀ q : List String, p.length = q.length → p.Nodup → q.Nodup →
      (∀ s ∈ p, ('_' : Char) ∉ s.data) → (∀ s ∈ q, ('_' : Char) ∉ s.data) →
      p ≠ q → buildTableName p ≠ buildTableName q := by
  refine ⟨buildTableName_eq_sepJoin p hp, ?_⟩
  intro q hlen _ _ hup huq hne heq
  have hq : q ≠ [] := by
    intro hq0
    subst hq0
    exact hp (List.length_eq_zero.mp hlen)
  rw [buildTableName_eq_sepJoin p hp, buildTableName_eq_sepJoin q hq] at heq
  have hdata : joinData (p.map String.data) = joinData (q.map String.data) := by
    rw [← sepJoin_data, ← sepJoin_data, heq]
  have hmaps : p.map String.data = q.map String.data :=
    joinData_inj (p.map String.data) (q.map String.data) (by simp [hlen])
      (by intro l hl
          obtain ⟨s, hs, hsl⟩ := List.mem_map.mp hl
          exact hsl ▸ hup s hs)
      (by intro l hl
          obtain ⟨s, hs, hsl⟩ := List.mem_map.mp hl
          exact hsl ▸ huq s hs)
      hdata
  exact hne (List.map_injective_iff.mpr (fun s t hst => String.ext hst) hmaps)

/-- Witness for C4 as amended: a three-element path joins to a_b_c and
differs from the name of a distinct underscore-free path of the same
length. -/
theorem buildTableName_spec_witness :
    buildTableName ["a", "b", "c"] = sepJoin ["a", "b", "c"] ∧
    buildTableName ["a", "b", "c"] ≠ buildTableName ["a", "b", "d"] ∧
    sepJoin ["a", "b", "c"] = "a_b_c" :=
  ⟨(buildTableName_spec ["a", "b", "c"] (by decide)).1,
   (buildTableName_spec ["a", "b", "c"] (by decide)).2 ["a", "b", "d"] rfl
     (by decide) (by decide) (by decide) (by decide) (by decide),
   by decide⟩

end TableNameTheorems

section EntryTheorems

/-- Helper: assigning a key absent from the entry appends the pair. -/
theorem objAssign_fresh (e : DBentry) (k v : String) (hk : k ∉ e.map Prod.fst) :
    objAssign e k v = e ++ [(k, v)] := by
  unfold objAssign
  rw [if_neg]
  intro hany
  rw [List.any_eq_true] at hany
  obtain ⟨p, hp, hpk⟩ := hany
  rw [decide_eq_true_eq] at hpk
  exact hk (List.mem_map.mpr ⟨p, hp, hpk⟩)

/-- Helper: the index loop of buildEntry, started from any accumulator
whose keys avoid the (duplicate-free) collection names, appends the
zipped pairs. -/
theorem buildEntry_general (docs : List String) :
    ∀ (cols : List String) (e : DBentry), cols.length = docs.length →
      (e.map Prod.fst ++ cols).Nodup →
      (List.range docs.length).foldl
          (fun a i => objAssign a (jsIndex cols i) (jsIndex docs i)) e =
        e ++ cols.zip docs := by
  induction docs with
  | nil => intro cols e _ _; simp
  | cons d docs2 ih =>
      intro cols e hlen hnd
      cases cols with
      | nil => simp at hlen
      | cons c cols2 =>
          have hrange : List.range (docs2.length + 1) =
              0 :: (List.range docs2.length).map (· + 1) := List.range_succ_eq_map _
          rw [List.length_cons, hrange, List.foldl_cons, List.foldl_map]
          have hshift : (fun (a : DBentry) (i : Nat) =>
              objAssign a (jsIndex (c :: cols2) (i + 1)) (jsIndex (d :: docs2) (i + 1))) =
              fun a i => objAssign a (jsIndex cols2 i) (jsIndex docs2 i) := rfl
          have hc : c ∉ e.map Prod.fst := by
            intro hmem
            have := List.disjoint_of_nodup_append hnd
            exact this hmem (List.mem_cons_self c cols2)
          have h0 : objAssign e (jsIndex (c :: cols2) 0) (jsIndex (d :: docs2) 0) =
              e ++ [(c, d)] := objAssign_fresh e c d hc
          rw [hshift, h0, ih cols2 (e ++ [(c, d)]) (by simpa using hlen)
            (by simpa [List.append_assoc] using hnd)]
          simp

/-- Helper: on equal-length inputs with duplicate-free collection names,
buildEntry is exactly the zipped pair list. -/
theorem buildEntry_eq_zip (cols docs : List String)
    (hlen : cols.length = docs.length) (hnd : cols.Nodup) :
    BaseOperation.buildEntry cols docs = cols.zip docs :=
  buildEntry_general docs cols [] hlen (by simpa using hnd)

/-- Helper: looking a zipped pair list up at the i-th key yields the i-th
value, when the keys are duplicate-free. -/
theorem lookupKey_zip (cols : List String) :
    ∀ (docs : List String), cols.Nodup → cols.length = docs.length →
      ∀ i k, cols.get? i = some k → lookupKey (cols.zip docs) k = docs.get? i := by
  induction cols with
  | nil => intro docs _ _ i k hk; simp at hk
  | cons c cols2 ih =>
      intro docs hnd hlen i k hk
      cases docs with
      | nil => simp at hlen
      | cons d docs2 =>
          cases i with
          | zero =>
              rw [List.get?_cons_zero, Option.some.injEq] at hk
              subst hk
              show lookupKey ((c, d) :: cols2.zip docs2) c = some d
              unfold lookupKey
              rw [List.find?_cons_of_pos _ (by simp)]
              rfl
          | succ j =>
              have hk2 : cols2.get? j = some k := by simpa using hk
              have hkmem : k ∈ cols2 := List.get?_mem hk2
              have hne : c ≠ k := fun hc => (List.nodup_cons.mp hnd).1 (hc ▸ hkmem)
              show lookupKey ((c, d) :: cols2.zip docs2) k = (d :: docs2).get? (j + 1)
              unfold lookupKey
              rw [List.find?_cons_of_neg _ (by simpa using hne)]
              simpa using ih docs2 (List.nodup_cons.mp hnd).2 (by simpa using hlen) j k hk2

/-- Helper: looking up the freshly appended key finds its value. -/
theorem lookupKey_append_fresh (e : DBentry) (k v : String)
    (hk : k ∉ e.map Prod.fst) : lookupKey (e ++ [(k, v)]) k = some v := by
  induction e with
  | nil =>
      unfold lookupKey
      rw [List.nil_append, List.find?_cons_of_pos _ (by simp)]
      rfl
  | cons p e2 ih =>
      simp only [List.map_cons, List.mem_cons] at hk
      push_neg at hk
      unfold lookupKey at ih ⊢
      rw [List.cons_append, List.find?_cons_of_neg _ (by simpa using fun h => hk.1 h.symm)]
      exact ih hk.2

/-- The claim C3 as frozen is false on the code: with equal-length inputs
a duplicated collection name collapses entries (one entry instead of
two), and with unequal lengths buildEntry does not fail at all (the loop
runs over the documents only, here producing the empty entry). -/
theorem buildEntry_counterexample :
    (BaseOperation.buildEntry ["a", "a"] ["x", "y"]).length ≠ 2 ∧
    BaseOperation.buildEntry ["a"] [] = [] := by
  decide

/-- C3 as amended: for equal-length inputs whose collection names are
pairwise distinct, buildEntry has exactly one entry per pair and maps the
i-th collection name to the i-th document; the save variant adds the
object entry on top when no collection is itself named object; and the
unequal-length failure lives in the save constructor, which rejects the
request with the path-length-parity build error, while buildEntry itself
performs no length check. -/
theorem buildEntry_spec (collections documents : List String)
    (hlen : collections.length = documents.length) (hnd : collections.Nodup) :
    (BaseOperation.buildEntry collections documents).length = documents.length ∧
    (∀ i k, collections.get? i = some k →
      lookupKey (BaseOperation.buildEntry collections documents) k = documents.get? i) ∧
    (∀ obj : String, "object" ∉ collections →
      (SaveOperation.buildEntry collections documents obj).length = documents.length + 1 ∧
      lookupKey (SaveOperation.buildEntry collections documents obj) "object" = some obj) ∧
    (∀ req : InternalOperationDescription,
      req.documents.length ≠ req.collections.length →
      SaveOperation.mkChecked req =
        Except.error "Invalid path length parity for a save operation") := by
  have heq := buildEntry_eq_zip collections documents hlen hnd
  have hkeys : (collections.zip documents).map Prod.fst = collections :=
    List.map_fst_zip collections documents (le_of_eq hlen)
  refine ⟨?_, ?_, ?_, ?_⟩
  · rw [heq, List.length_zip, hlen, Nat.min_self]
  · intro i k hk
    rw [heq]
    exact lookupKey_zip collections documents hnd hlen i k hk
  · intro obj hobj
    have hfresh : "object" ∉ (BaseOperation.buildEntry collections documents).map Prod.fst := by
      rw [heq, hkeys]
      exact hobj
    constructor
    · show (objAssign (BaseOperation.buildEntry collections documents) "object" obj).length = _
      rw [objAssign_fresh _ _ _ hfresh, List.length_append, heq, List.length_zip, hlen,
        Nat.min_self]
      rfl
    · show lookupKey (objAssign (BaseOperation.buildEntry collections documents) "object" obj)
        "object" = some obj
      rw [objAssign_fresh _ _ _ hfresh]
      exact lookupKey_append_fresh _ _ _ hfresh
  · intro req hne
    unfold SaveOperation.mkChecked
    rw [if_pos hne]

/-- Witness for C3 as amended: a two-collection path maps each collection
to its document, the save entry adds the object key, and a request with
one collection and no document is rejected by the save constructor. -/
theorem buildEntry_spec_witness :
    (BaseOperation.buildEntry ["users", "messages"] ["id1", "id2"]).length = 2 ∧
    lookupKey (BaseOperation.buildEntry ["users", "messages"] ["id1", "id2"]) "users" =
      some "id1" ∧
    lookupKey (BaseOperation.buildEntry ["users", "messages"] ["id1", "id2"]) "messages" =
      some "id2" ∧
    (SaveOperation.buildEntry ["users", "messages"] ["id1", "id2"] "payload").length = 3 ∧
    lookupKey (SaveOperation.buildEntry ["users", "messages"] ["id1", "id2"] "payload")
      "object" = some "payload" ∧
    SaveOperation.mkChecked
        { action := myTypes.action.save, collections := ["users"], documents := [],
          opID := "op5", encObject := some "x", options := none } =
      Except.error "Invalid path length parity for a save operation" :=
  ⟨(buildEntry_spec ["users", "messages"] ["id1", "id2"] rfl (by decide)).1,
   (buildEntry_spec ["users", "messages"] ["id1", "id2"] rfl (by decide)).2.1 0 "users" rfl,
   (buildEntry_spec ["users", "messages"] ["id1", "id2"] rfl (by decide)).2.1 1 "messages" rfl,
   ((buildEntry_spec ["users", "messages"] ["id1", "id2"] rfl (by decide)).2.2.1 "payload"
     (by decide)).1,
   ((buildEntry_spec ["users", "messages"] ["id1", "id2"] rfl (by decide)).2.2.1 "payload"
     (by decide)).2,
   (buildEntry_spec ["users", "messages"] ["id1", "id2"] rfl (by decide)).2.2.2
     { action := myTypes.action.save, collections := ["users"], documents := [],
       opID := "op5", encObject := some "x", options := none } (by decide)⟩

end EntryTheorems

end TED
